import Mathlib

/-!
Verification of the streaming performance-analysis engine
(`backend/app/services/analysis_service.py` and the websocket command
handling in `backend/app/routers/audio.py`).

Modelling conventions:
* Python strings are modelled as `List Char`; bytes objects as `List ℕ`
  (each entry a byte value 0..255).
* 16-bit PCM samples and all autocorrelation arithmetic are exact, so they
  are modelled over `ℚ`; quantities that pass through `sqrt`, `log2` or
  `2 ** x` (RMS values, the noise floor, frequencies in Hz, cents) are
  modelled over `ℝ`.
* Python's `round` builtin (banker's rounding, half to even) is `pyRound`;
  `round(x, 1)` is `round1`.
* Python dicts returned by the analyzers are modelled as structures whose
  optional keys are `Option` fields (a key that is absent is `none`).
-/

set_option maxHeartbeats 1000000

/-- Absolute value on `ℚ` written with an explicit `if` (numpy's `np.abs`);
kept free of the lattice operations so that it evaluates by `simp`. -/
def qabs (q : ℚ) : ℚ := if q < 0 then -q else q

/-- Binary maximum on `ℚ` written with an explicit `if` (numpy's `np.max`
folded over a list). -/
def qmax (a b : ℚ) : ℚ := if a ≤ b then b else a

/-- Python's builtin `round` (and numpy's): round half to even. -/
def pyRound {α : Type} [LinearOrderedField α] [FloorRing α] (x : α) : ℤ :=
  if x - ⌊x⌋ < 1/2 then ⌊x⌋
  else if (1/2 : α) < x - ⌊x⌋ then ⌊x⌋ + 1
  else if ⌊x⌋ % 2 = 0 then ⌊x⌋ else ⌊x⌋ + 1

/-- Python's `round(x, 1)`: one decimal place, half to even. -/
def round1 (x : ℚ) : ℚ := (pyRound (10 * x) : ℚ) / 10

/-- Decimal digit character for a value 0..9. -/
def digitChar (d : ℕ) : Char := ['0','1','2','3','4','5','6','7','8','9'].getD d '0'

/-- Decimal digit test (the characters Python's `int()` accepts after an
optional sign). -/
def isDigitChar (c : Char) : Bool := 48 ≤ c.toNat && c.toNat ≤ 57

/-- Numeric value of a decimal digit character. -/
def digitVal (c : Char) : ℕ := c.toNat - 48

/-- Decimal rendering of a natural number, most significant digit first;
`fuel` bounds the recursion and any `fuel > n` gives the true rendering. -/
def pyStrNatAux : ℕ → ℕ → List Char
  | 0, _ => []
  | fuel + 1, n =>
      if n < 10 then [digitChar n]
      else pyStrNatAux fuel (n / 10) ++ [digitChar (n % 10)]

/-- Python's `str` on a natural number. -/
def pyStrNat (n : ℕ) : List Char := pyStrNatAux (n + 1) n

/-- Python's `str` on an integer (an f-string's rendering of an `int`). -/
def pyStrInt (n : ℤ) : List Char :=
  if n < 0 then '-' :: pyStrNat (-n).toNat else pyStrNat n.toNat

/-- Python's `int()` on a digit string: `some` value, or `none` when the
string is empty or holds a non-digit (`int` raises `ValueError`).  Only the
canonical forms (digits, optionally preceded by one minus sign) are
modelled; the exotic inputs `int()` also accepts (whitespace, `+`,
underscores) cannot arise from the strings this development parses. -/
def pyParseNat (l : List Char) : Option ℕ :=
  if l ≠ [] ∧ l.all isDigitChar then
    some (l.foldl (fun a c => 10 * a + digitVal c) 0)
  else none

/-- Python's `int()` with an optional leading minus sign. -/
def pyParseInt (l : List Char) : Option ℤ :=
  match l with
  | [] => none
  | c :: cs =>
      if c = '-' then (pyParseNat cs).map (fun m : ℕ => -(m : ℤ))
      else (pyParseNat (c :: cs)).map (fun m : ℕ => (m : ℤ))

/-! ## Note-name / frequency conversion (`note_to_frequency`, lines 18-62) -/

/-- Note-to-semitone table of `note_to_frequency` (C = 0). -/
def note_map : List (List Char × ℤ) :=
  [(['C'], 0), (['C','#'], 1), (['D','b'], 1), (['D'], 2), (['D','#'], 3),
   (['E','b'], 3), (['E'], 4), (['F'], 5), (['F','#'], 6), (['G','b'], 6),
   (['G'], 7), (['G','#'], 8), (['A','b'], 8), (['A'], 9), (['A','#'], 10),
   (['B','b'], 10), (['B'], 11)]

/-- Lookup in `note_map` (`note_map[note]` guarded by `note in note_map`). -/
def lookupNote (s : List Char) : Option ℤ :=
  (note_map.find? (fun p => decide (p.1 = s))).map Prod.snd

/-- Lines 18-62: convert a note name with octave to its frequency in Hz.
The frequency is `440 * 2 ** ((midi - 69) / 12)` with
`midi = (octave + 1) * 12 + semitone`. -/
noncomputable def note_to_frequency (s : List Char) : Option ℝ :=
  if s = ['r','e','s','t'] ∨ s = [] then none
  else if 2 ≤ s.length then
    let pair : List Char × List Char :=
      match s with
      | c0 :: c1 :: rest =>
          if c1 = '#' ∨ c1 = 'b' then ([c0, c1], rest) else ([c0], c1 :: rest)
      | _ => ([], [])
    match lookupNote pair.1, pyParseInt pair.2 with
    | some k, some oct =>
        some (440 * (2 : ℝ) ^ (((((oct + 1) * 12 + k : ℤ) : ℝ) - 69) / 12))
    | _, _ => none
  else none

/-- The `note_names` array of `PerformanceAnalyzer._frequency_to_note`. -/
def note_names : List (List Char) :=
  [['C'], ['C','#'], ['D'], ['D','#'], ['E'], ['F'], ['F','#'], ['G'],
   ['G','#'], ['A'], ['A','#'], ['B']]

/-- Lines 415-437 (`PerformanceAnalyzer._frequency_to_note`): convert a
frequency to the nearest note name.  Python's `//` and `%` on a positive
divisor are `Int.ediv` / `Int.emod`. -/
noncomputable def _frequency_to_note (f : ℝ) : List Char :=
  if f ≤ 0 then ['U','n','k','n','o','w','n']
  else
    let m : ℤ := pyRound (69 + 12 * Real.logb 2 (f / 440))
    note_names.getD (m.emod 12).toNat [] ++ pyStrInt (m.ediv 12 - 1)

/-! ## AudioAnalyzer constants (lines 72-107) -/

/-- Sample rate the analyzer is constructed with (Hz). -/
def sample_rate : ℕ := 44100

/-- Minimum number of buffered samples before pitch detection runs. -/
def min_samples_for_pitch : ℕ := 2048

/-- Size bound of the rolling RMS history. -/
def rms_window_size : ℕ := 50

/-- Smoothing factor of the noise-floor exponential average (0.002). -/
noncomputable def noise_floor_alpha : ℝ := 1/500

/-- Multiplier above the noise floor for the onset amplitude check (7.0). -/
noncomputable def adaptive_threshold_factor : ℝ := 7

/-- Minimum RMS slope required for onset (0.015). -/
noncomputable def min_slope_threshold : ℝ := 3/200

/-- Number of recent samples the sustained-increase check looks at. -/
def min_sustained_samples : ℕ := 5

/-- Loudness-persistence multiplier above the noise floor (4.0). -/
noncomputable def loudness_threshold_factor : ℝ := 4

/-- Required count of consecutive loud frames before onset is considered. -/
def min_loud_frames : ℕ := 6

/-! ## Pitch detection (`AudioAnalyzer._detect_pitch`, lines 246-308) -/

/-- Line 257: `np.max(np.abs(audio_data))`.  The fold over `0` equals numpy's
maximum because samples enter with non-negative absolute values and the
caller always passes a non-empty buffer (at least 2048 samples).  The
`rms` local computed on line 258 is never used by the source and is
omitted. -/
def maxAmplitude (audio : List ℚ) : ℚ :=
  audio.foldl (fun a x => qmax a (qabs x)) 0

/-- Lines 265-266: the non-negative-lag half of the full autocorrelation,
`corr[k] = sum_i audio[i] * audio[i+k]` for `0 ≤ k < n`. -/
def autocorrHalf (audio : List ℚ) : List ℚ :=
  (List.range audio.length).map (fun k =>
    ((List.range (audio.length - k)).map
      (fun i => audio.getD i 0 * audio.getD (i + k) 0)).sum)

/-- Line 269: normalize by the zero-lag value when it is positive. -/
def normCorr (audio : List ℚ) : List ℚ :=
  let c := autocorrHalf audio
  if 0 < c.getD 0 0 then c.map (fun v => v / c.getD 0 0) else c

/-- Line 272: lag of the maximal searched frequency (`int(rate / 2000)`). -/
def min_period (rate : ℕ) : ℕ := rate / 2000

/-- Line 273: lag of the minimal searched frequency (`int(rate / 50)`). -/
def max_period (rate : ℕ) : ℕ := rate / 50

/-- Line 279: `correlation[min_period:max_period]`. -/
def searchRange (rate : ℕ) (audio : List ℚ) : List ℚ :=
  ((normCorr audio).drop (min_period rate)).take (max_period rate - min_period rate)

/-- The correlation value the peak scan must exceed (line 285, 0.3). -/
def peak_threshold : ℚ := 3/10

/-- Lines 290-292: index `i` is a local maximum of the search range above
the peak threshold. -/
def localPeakAt (sr : List ℚ) (i : ℕ) : Prop :=
  sr.getD (i - 1) 0 < sr.getD i 0 ∧ sr.getD (i + 1) 0 < sr.getD i 0 ∧
    peak_threshold < sr.getD i 0

instance (sr : List ℚ) (i : ℕ) : Decidable (localPeakAt sr i) := by
  unfold localPeakAt; infer_instance

/-- The loop of lines 288-294 from index `i` with `fuel` iterations left:
the first qualifying index, scanning upward. -/
def firstPeakFrom (sr : List ℚ) : ℕ → ℕ → Option ℕ
  | _, 0 => none
  | i, fuel + 1 =>
      if localPeakAt sr i then some i else firstPeakFrom sr (i + 1) fuel

/-- Lines 288-294: `for i in range(1, len(search_range) - 1)` — the first
local maximum above the threshold, if any. -/
def firstPeak (sr : List ℚ) : Option ℕ := firstPeakFrom sr 1 (sr.length - 2)

/-- Line 298: `np.argmax` — the first index carrying the maximum value. -/
def argmaxIdx : List ℚ → ℕ
  | [] => 0
  | [_] => 0
  | x :: y :: rest =>
      if x < (y :: rest).getD (argmaxIdx (y :: rest)) 0
      then argmaxIdx (y :: rest) + 1 else 0

/-- Lines 246-308 (`AudioAnalyzer._detect_pitch`): detect the fundamental
frequency of a sample window by autocorrelation, or `none`. -/
def _detect_pitch (rate : ℕ) (audio : List ℚ) : Option ℚ :=
  if maxAmplitude audio < 1/500 then none
  else if (normCorr audio).length ≤ max_period rate then none
  else
    let sr := searchRange rate audio
    if sr.length = 0 then none
    else
      let peak_index : ℕ :=
        match firstPeak sr with
        | some i => i + min_period rate
        | none => argmaxIdx sr + min_period rate
      if 0 < peak_index then
        if 50 ≤ (rate : ℚ) / peak_index ∧ (rate : ℚ) / peak_index ≤ 2000 then
          some ((rate : ℚ) / peak_index)
        else none
      else none

/-! ## AudioAnalyzer state (`AudioAnalyzer.__init__`, lines 72-107) -/

/-- Mutable per-session fields of an `AudioAnalyzer` instance.  The tunable
constants of the detector are module-level definitions above, since the
source never mutates them. -/
structure AudioState where
  total_bytes : ℕ
  pitch_detection_buffer : List ℚ
  onset_detected : Bool
  onset_time : Option ℚ
  rms_history : List ℝ
  noise_floor : ℝ
  consecutive_loud_frames : ℕ
  detected_pitches : List ℚ

/-- Field values `AudioAnalyzer.__init__` assigns (lines 80-107). -/
noncomputable def initAudioState : AudioState :=
  { total_bytes := 0
    pitch_detection_buffer := []
    onset_detected := false
    onset_time := none
    rms_history := []
    noise_floor := 1/1000
    consecutive_loud_frames := 0
    detected_pitches := [] }

/-- One analysis frame (the dict `_analyze_chunk` returns, possibly enriched
by `PerformanceAnalyzer.analyze_chunk`).  A key the source leaves out of
the dict is `none`; the error frame's `message` string is not modelled.
`verdict` bundles the accuracy keys `analyze_chunk` adds. -/
structure Verdict where
  expected_pitch : List Char
  expected_frequency : ℝ
  cents_off : ℝ
  pitch_accurate : Bool
  accuracy_level : String
  is_right_note : Bool
  current_note_index : ℕ
  detected_note : List Char

structure Frame where
  status : String
  rms : Option ℝ := none
  onset_detected : Bool := false
  pitch_hz : Option ℚ := none
  timestamp_seconds : Option ℚ := none
  verdict : Option Verdict := none

/-- Count of increasing consecutive pairs among the most recent
`min_sustained_samples` history entries (lines 190-194: `recent_rms[-i] >
recent_rms[-(i+1)]` for `i in range(1, min_sustained_samples)`). -/
noncomputable def countIncreases (recent : List ℝ) : ℕ :=
  ((List.range' 1 (min_sustained_samples - 1)).filter
    (fun i => decide (recent.getD (recent.length - (i + 1)) 0 <
                      recent.getD (recent.length - i) 0))).length

/-- Lines 153-213: the adaptive RMS + slope onset detection step.  Returns
the updated state and the frame's `onset_detected` flag (`current_onset`).
When the latch has already fired the whole block is skipped. -/
noncomputable def onset_step (st : AudioState) (rms : ℝ) (now : ℚ) :
    AudioState × Bool :=
  if st.onset_detected then (st, false)
  else
    let hist0 := st.rms_history ++ [rms]
    let hist := if rms_window_size < hist0.length then hist0.drop 1 else hist0
    let nf := if rms < st.noise_floor * 1.5
              then (1 - noise_floor_alpha) * st.noise_floor + noise_floor_alpha * rms
              else st.noise_floor
    let clf := if nf * loudness_threshold_factor < rms
               then st.consecutive_loud_frames + 1 else 0
    let base := { st with rms_history := hist, noise_floor := nf,
                          consecutive_loud_frames := clf }
    if min_loud_frames ≤ clf then
      let recent := hist.drop (hist.length - 8)
      let slope : ℝ :=
        if 8 ≤ hist.length then (recent.getLastD 0 - recent.getD 0 0) / 7 else 0
      if nf * adaptive_threshold_factor < rms ∧ min_slope_threshold < slope ∧
         (8 ≤ hist.length ∧ min_sustained_samples - 2 ≤ countIncreases recent) ∧
         20 ≤ hist.length ∧ nf * 6 < rms
      then ({ base with onset_detected := true, onset_time := some now }, true)
      else (base, false)
    else (base, false)

/-- Lines 216-230: accumulate samples into the sliding pitch buffer, run
pitch detection once the buffer is large enough, keep the trailing half.
Returns (new buffer, new detected-pitches list, pitch of this call). -/
def pitch_step (buffer samples pitches : List ℚ) :
    List ℚ × List ℚ × Option ℚ :=
  let buf := buffer ++ samples
  if min_samples_for_pitch ≤ buf.length then
    let pitch := _detect_pitch sample_rate buf
    let pitches' := match pitch with
      | some p => if 0 < p then pitches ++ [p] else pitches
      | none => pitches
    (buf.drop (buf.length - min_samples_for_pitch / 2), pitches', pitch)
  else (buf, pitches, none)

/-- Two's-complement interpretation of a 16-bit little-endian word
(`np.frombuffer(chunk, dtype=np.int16)` on one sample). -/
def toInt16 (w : ℕ) : ℤ := if w % 65536 < 32768 then (w % 65536 : ℤ) else (w % 65536 : ℤ) - 65536

/-- Byte-pair decoding of `np.frombuffer(chunk, dtype=np.int16)`: `none`
models the `ValueError` raised when the byte count is odd. -/
def decodeInt16 : List ℕ → Option (List ℤ)
  | [] => some []
  | [_] => none
  | lo :: hi :: rest =>
      (decodeInt16 rest).map (fun t => toInt16 (lo % 256 + 256 * (hi % 256)) :: t)

/-- RMS of a normalized sample list (line 147). -/
noncomputable def rmsOf (samples : List ℚ) : ℝ :=
  Real.sqrt (((((samples.map (fun x => x * x)).sum / samples.length : ℚ)) : ℝ))

/-- Lines 126-244 (`AudioAnalyzer._analyze_chunk`): decode, RMS, onset
detection, pitch detection, frame assembly.  `none` from decoding models the
caught exception (error frame, line 244); an empty decoded array returns the
empty frame (lines 140-141).  `total_bytes` was already updated by
`add_audio_chunk` before this runs. -/
noncomputable def _analyze_chunk (st : AudioState) (chunk : List ℕ) :
    AudioState × Frame :=
  match decodeInt16 chunk with
  | none => (st, { status := "error" })
  | some [] => (st, { status := "empty" })
  | some ds =>
      let samples := ds.map (fun v : ℤ => (v : ℚ) / 32768)
      let rms := rmsOf samples
      let now := (st.total_bytes : ℚ) / ((sample_rate : ℚ) * 2)
      let os := onset_step st rms now
      let pr := pitch_step os.1.pitch_detection_buffer samples os.1.detected_pitches
      ({ os.1 with pitch_detection_buffer := pr.1, detected_pitches := pr.2.1 },
       { status := "analyzed"
         rms := some rms
         onset_detected := os.2
         pitch_hz := match pr.2.2 with
                     | some p => if p ≠ 0 then some p else none
                     | none => none
         timestamp_seconds := some now
         verdict := none })

/-- Lines 109-124 (`AudioAnalyzer.add_audio_chunk`): count the bytes, then
analyze the chunk. -/
noncomputable def add_audio_chunk (st : AudioState) (chunk : List ℕ) :
    AudioState × Frame :=
  _analyze_chunk { st with total_bytes := st.total_bytes + chunk.length } chunk

/-- Driving the analyzer over a whole stream of chunks, collecting each
frame in order. -/
noncomputable def process_chunks : AudioState → List (List ℕ) → AudioState × List Frame
  | st, [] => (st, [])
  | st, c :: cs =>
      ((process_chunks (add_audio_chunk st c).1 cs).1,
       (add_audio_chunk st c).2 :: (process_chunks (add_audio_chunk st c).1 cs).2)

/-- Lines 331-342 (`AudioAnalyzer.reset`): every mutable field back to its
`__init__` value. -/
noncomputable def audio_reset (_st : AudioState) : AudioState := initAudioState

/-! ## PerformanceAnalyzer (lines 345-565) and the websocket commands -/

/-- The excerpt metadata `get_final_report` reads (title, composer, tempo). -/
structure Excerpt where
  title : List Char
  composer : Option (List Char)
  tempo : Option ℤ

/-- One entry of `self.expected_notes` (lines 408-413): a pitched note with
its precomputed frequency. -/
structure ExpectedNote where
  pitch : List Char
  frequency : ℝ
  duration_quarter : ℚ
  offset : ℚ

/-- Per-session state of a `PerformanceAnalyzer` (lines 353-372).  The
excerpt and the expected-note list are fixed at construction by
`_load_excerpt`; chunks and commands only mutate `audio`,
`current_note_index` and `tempo`. -/
structure PerformanceState where
  excerpt_id : List Char
  audio : AudioState
  excerpt : Option Excerpt
  expected_notes : List ExpectedNote
  current_note_index : ℕ
  tempo : ℤ

/-- Lines 487-488: `cents_off = 1200 * log2(detected / expected)`. -/
noncomputable def cents_off (detected_freq expected_freq : ℝ) : ℝ :=
  1200 * Real.logb 2 (detected_freq / expected_freq)

/-- Lines 491-505: the `accuracy_level` elif chain over `abs_cents`. -/
noncomputable def accuracy_level (abs_cents : ℝ) : String :=
  if abs_cents ≤ 10 then "excellent"
  else if abs_cents ≤ 25 then "good"
  else if abs_cents ≤ 50 then "fair"
  else if abs_cents ≤ 100 then "poor"
  else "very_poor"

/-- Lines 491-505: the `is_accurate` flag set along the same chain. -/
noncomputable def pitch_accurate (abs_cents : ℝ) : Bool :=
  if abs_cents ≤ 10 then true
  else if abs_cents ≤ 25 then true
  else if abs_cents ≤ 50 then true
  else if abs_cents ≤ 100 then false
  else false

/-- Line 510: `is_right_note = abs_cents <= 75`. -/
noncomputable def is_right_note (abs_cents : ℝ) : Bool := decide (abs_cents ≤ 75)

/-- Lines 449-460 (`PerformanceAnalyzer.set_current_note_index`): accept an
index inside `[0, len(expected_notes))`, otherwise log and leave the state
unchanged.  The requested index arrives as an arbitrary integer. -/
def set_current_note_index (ps : PerformanceState) (note_index : ℤ) :
    PerformanceState :=
  if 0 ≤ note_index ∧ note_index < (ps.expected_notes.length : ℤ) then
    { ps with current_note_index := note_index.toNat }
  else ps

/-- Lines 439-447 (`PerformanceAnalyzer.set_tempo`): store the value. -/
def set_tempo (ps : PerformanceState) (tempo : ℤ) : PerformanceState :=
  { ps with tempo := tempo }

/-- Lines 90-95 of `routers/audio.py`: the `set_note_index` command calls
`set_current_note_index` and sends nothing back ("No need to send response,
just acknowledge silently").  The `Option String` is the reply text the
websocket would send for this command: always `none`. -/
def set_note_index_command (ps : PerformanceState) (note_index : ℤ) :
    PerformanceState × Option String :=
  (set_current_note_index ps note_index, none)

open Classical in
/-- Lines 462-530 (`PerformanceAnalyzer.analyze_chunk`): run the audio
analyzer, then attach the accuracy verdict when the score is loaded, the
cursor is valid, the frame has a (truthy) pitch and onset has fired.  The
source checks the four gate conditions in one `if`; here the pitch value is
brought into scope by the `match` and the remaining conditions keep their
order. -/
noncomputable def analyze_chunk (ps : PerformanceState) (chunk : List ℕ) :
    PerformanceState × Frame :=
  let r := add_audio_chunk ps.audio chunk
  let ps' := { ps with audio := r.1 }
  match r.2.pitch_hz with
  | none => (ps', r.2)
  | some p =>
      if hg : ps.expected_notes ≠ [] ∧
              ps.current_note_index < ps.expected_notes.length ∧
              p ≠ 0 ∧ r.1.onset_detected = true then
        let en := ps.expected_notes.get ⟨ps.current_note_index, hg.2.1⟩
        let cents := cents_off (p : ℝ) en.frequency
        (ps',
         { r.2 with verdict := some ({
              expected_pitch := en.pitch
              expected_frequency := en.frequency
              cents_off := cents
              pitch_accurate := pitch_accurate |cents|
              accuracy_level := accuracy_level |cents|
              is_right_note := is_right_note |cents|
              current_note_index := ps.current_note_index
              detected_note := _frequency_to_note ((p : ℚ) : ℝ) } : Verdict) })
      else (ps', r.2)

/-- The summary dict of `get_summary` (lines 310-329) merged with the
excerpt fields `get_final_report` adds (lines 532-560). -/
structure FinalReport where
  total_duration_seconds : ℚ
  total_bytes_received : ℕ
  onset_detected : Bool
  onset_time : Option ℚ
  detected_pitches : List ℚ
  average_pitch_hz : Option ℚ
  num_pitch_detections : ℕ
  excerpt_id : List Char
  excerpt_title : Option (List Char)
  excerpt_composer : Option (Option (List Char))
  excerpt_tempo : Option (Option ℤ)
  total_notes_in_score : ℕ
  notes_played : ℕ
  completion_percentage : ℚ

open Classical in
/-- Lines 532-560 (`PerformanceAnalyzer.get_final_report`), including the
`get_summary` fields.  Truthiness of `onset_time` and of the average pitch
(`float(x) if x else None`) is modelled by the `≠ 0` guards. -/
noncomputable def get_final_report (ps : PerformanceState) : FinalReport :=
  let avg : Option ℚ :=
    if ps.audio.detected_pitches ≠ [] then
      some (ps.audio.detected_pitches.sum / ps.audio.detected_pitches.length)
    else none
  { total_duration_seconds := (ps.audio.total_bytes : ℚ) / ((sample_rate : ℚ) * 2)
    total_bytes_received := ps.audio.total_bytes
    onset_detected := ps.audio.onset_detected
    onset_time := match ps.audio.onset_time with
                  | some t => if t ≠ 0 then some t else none
                  | none => none
    detected_pitches := ps.audio.detected_pitches.take 10
    average_pitch_hz := match avg with
                        | some a => if a ≠ 0 then some a else none
                        | none => none
    num_pitch_detections := ps.audio.detected_pitches.length
    excerpt_id := ps.excerpt_id
    excerpt_title := (ps.excerpt).map Excerpt.title
    excerpt_composer := (ps.excerpt).map Excerpt.composer
    excerpt_tempo := (ps.excerpt).map Excerpt.tempo
    total_notes_in_score := ps.expected_notes.length
    notes_played := ps.current_note_index
    completion_percentage :=
      if ps.expected_notes ≠ [] then
        round1 ((ps.current_note_index : ℚ) / (ps.expected_notes.length : ℚ) * 100)
      else 0 }

/-- Lines 562-565 (`PerformanceAnalyzer.reset`): reset the audio analyzer
and rewind the cursor; nothing else is touched. -/
noncomputable def performance_reset (ps : PerformanceState) : PerformanceState :=
  { ps with audio := audio_reset ps.audio, current_note_index := 0 }

/-! ## Concrete states used by witnesses and counterexamples -/

/-- A single expected note (A4 at 440 Hz). -/
noncomputable def exampleNote : ExpectedNote :=
  { pitch := ['A','4'], frequency := 440, duration_quarter := 1, offset := 0 }

/-- A fresh session bound to a one-note excerpt, cursor at the only (hence
final) valid index 0. -/
noncomputable def psOneNote : PerformanceState :=
  { excerpt_id := ['e','x']
    audio := initAudioState
    excerpt := none
    expected_notes := [exampleNote]
    current_note_index := 0
    tempo := 120 }

/-- An audio state whose onset latch has fired. -/
noncomputable def audioFired : AudioState :=
  { total_bytes := 4
    pitch_detection_buffer := [1]
    onset_detected := true
    onset_time := some 1
    rms_history := [1]
    noise_floor := 1
    consecutive_loud_frames := 2
    detected_pitches := [440] }

/-- A session mid-performance whose tempo was set to 90 BPM. -/
noncomputable def psFired : PerformanceState :=
  { psOneNote with audio := audioFired, tempo := 90 }

/-- Specification-side predicate (from the spec of the peak picking): index
`i` of the search range is eligible for the scan of lines 288-294 — inside
the scanned window `range(1, len - 1)` — and is a local maximum above the
peak threshold. -/
def QualifiesAsPeak (sr : List ℚ) (i : ℕ) : Prop :=
  1 ≤ i ∧ i + 1 < sr.length ∧ localPeakAt sr i

/-! ## Helper lemmas about the analysis step -/

/-- Frames coming out of the audio layer never carry a verdict; only
`PerformanceAnalyzer.analyze_chunk` attaches one. -/
theorem add_audio_chunk_verdict_none (st : AudioState) (chunk : List ℕ) :
    (add_audio_chunk st chunk).2.verdict = none := by
  unfold add_audio_chunk _analyze_chunk
  split <;> rfl

/-- The value stored in the `pitch_hz` key is never the (falsy) zero: the
source stores `float(pitch) if pitch else None`. -/
theorem pitch_key_ne_zero (o : Option ℚ) (p : ℚ)
    (h : (match o with
          | some q => if q ≠ 0 then some q else none
          | none => none) = some p) : p ≠ 0 := by
  rcases o with _ | q
  · simp at h
  · by_cases hq : q = 0
    · simp [hq] at h
    · simp only [ne_eq, hq, not_false_eq_true, if_true, Option.some.injEq] at h
      exact h ▸ hq

/-- A frame's `pitch_hz` value is never zero. -/
theorem add_audio_chunk_pitch_ne_zero (st : AudioState) (chunk : List ℕ)
    (p : ℚ) (h : (add_audio_chunk st chunk).2.pitch_hz = some p) : p ≠ 0 := by
  unfold add_audio_chunk _analyze_chunk at h
  rcases hdec : decodeInt16 chunk with _ | ds
  · rw [hdec] at h; simp at h
  · rcases ds with _ | ⟨d, ds⟩
    · rw [hdec] at h; simp at h
    · rw [hdec] at h
      simp only at h
      exact pitch_key_ne_zero _ p h

/-- C3: `cents_off` satisfies the defining formula, vanishes on equal
positive frequencies, and increases strictly with the ratio
`detected / expected`. -/
theorem cents_off_formula_and_monotone (f d₁ e₁ d₂ e₂ : ℝ)
    (hf : 0 < f) (h₁ : 0 < d₁ / e₁) (hlt : d₁ / e₁ < d₂ / e₂) :
    cents_off f f = 0 ∧
    cents_off d₁ e₁ = 1200 * Real.logb 2 (d₁ / e₁) ∧
    cents_off d₁ e₁ < cents_off d₂ e₂ := by
  refine ⟨?_, rfl, ?_⟩
  · unfold cents_off
    rw [div_self (ne_of_gt hf), Real.logb_one, mul_zero]
  · unfold cents_off
    have := Real.logb_lt_logb (b := 2) (by norm_num) h₁ hlt
    linarith

/-- Witness for C3 at the concrete frequencies 1, 2 (ratio 1 below ratio 2). -/
theorem cents_off_formula_and_monotone_witness :
    (0:ℝ) < 1 ∧ (0:ℝ) < 1 / 1 ∧ (1:ℝ) / 1 < 2 / 1 ∧
    (cents_off 1 1 = 0 ∧
     cents_off 1 1 = 1200 * Real.logb 2 (1 / 1) ∧
     cents_off 1 1 < cents_off 2 1) :=
  ⟨by norm_num, by norm_num, by norm_num,
   cents_off_formula_and_monotone 1 1 1 2 1 (by norm_num) (by norm_num) (by norm_num)⟩

/-- C4: whenever a verdict is produced its `accuracy_level` and
`is_right_note` come from the classification chain, and that chain realizes
exactly the ordered thresholds 10 / 25 / 50 / 100 cents with the separate
75-cent right-note gate. -/
theorem accuracy_thresholds :
    (∀ c : ℝ,
      (accuracy_level |c| = "excellent" ↔ |c| ≤ 10) ∧
      (accuracy_level |c| = "good" ↔ 10 < |c| ∧ |c| ≤ 25) ∧
      (accuracy_level |c| = "fair" ↔ 25 < |c| ∧ |c| ≤ 50) ∧
      (accuracy_level |c| = "poor" ↔ 50 < |c| ∧ |c| ≤ 100) ∧
      (accuracy_level |c| = "very_poor" ↔ 100 < |c|) ∧
      (is_right_note |c| = true ↔ |c| ≤ 75)) ∧
    (∀ ps chunk v, (analyze_chunk ps chunk).2.verdict = some v →
      v.accuracy_level = accuracy_level |v.cents_off| ∧
      v.is_right_note = is_right_note |v.cents_off| ∧
      v.pitch_accurate = pitch_accurate |v.cents_off|) := by
  constructor
  · intro c
    unfold accuracy_level is_right_note
    have h1 : ("excellent" : String) ≠ "good" := by decide
    have h2 : ("excellent" : String) ≠ "fair" := by decide
    have h3 : ("excellent" : String) ≠ "poor" := by decide
    have h4 : ("excellent" : String) ≠ "very_poor" := by decide
    have h5 : ("good" : String) ≠ "fair" := by decide
    have h6 : ("good" : String) ≠ "poor" := by decide
    have h7 : ("good" : String) ≠ "very_poor" := by decide
    have h8 : ("fair" : String) ≠ "poor" := by decide
    have h9 : ("fair" : String) ≠ "very_poor" := by decide
    have h10 : ("poor" : String) ≠ "very_poor" := by decide
    rw [decide_eq_true_iff]
    split_ifs with ha hb hc hd
    · exact ⟨iff_of_true rfl ha,
        iff_of_false h1 (fun h => by linarith [h.1]),
        iff_of_false h2 (fun h => by linarith [h.1]),
        iff_of_false h3 (fun h => by linarith [h.1]),
        iff_of_false h4 (by intro h; linarith),
        Iff.rfl⟩
    · exact ⟨iff_of_false (Ne.symm h1) ha,
        iff_of_true rfl ⟨not_le.mp ha, hb⟩,
        iff_of_false h5 (fun h => by linarith [h.1]),
        iff_of_false h6 (fun h => by linarith [h.1]),
        iff_of_false h7 (by intro h; linarith),
        Iff.rfl⟩
    · exact ⟨iff_of_false (Ne.symm h2) ha,
        iff_of_false (Ne.symm h5) (fun h => hb h.2),
        iff_of_true rfl ⟨not_le.mp hb, hc⟩,
        iff_of_false h8 (fun h => by linarith [h.1]),
        iff_of_false h9 (by intro h; linarith),
        Iff.rfl⟩
    · exact ⟨iff_of_false (Ne.symm h3) ha,
        iff_of_false (Ne.symm h6) (fun h => hb h.2),
        iff_of_false (Ne.symm h8) (fun h => hc h.2),
        iff_of_true rfl ⟨not_le.mp hc, hd⟩,
        iff_of_false h10 (by intro h; linarith),
        Iff.rfl⟩
    · exact ⟨iff_of_false (Ne.symm h4) ha,
        iff_of_false (Ne.symm h7) (fun h => hb h.2),
        iff_of_false (Ne.symm h9) (fun h => hc h.2),
        iff_of_false (Ne.symm h10) (fun h => hd h.2),
        iff_of_true rfl (not_le.mp hd),
        Iff.rfl⟩
  · intro ps chunk v hv
    simp only [analyze_chunk] at hv
    rcases hp : (add_audio_chunk ps.audio chunk).2.pitch_hz with _ | p
    · rw [hp] at hv
      simp only [add_audio_chunk_verdict_none] at hv
      exact absurd hv (by simp)
    · rw [hp] at hv
      simp only at hv
      split at hv
      · simp only [Option.some.injEq] at hv
        subst hv
        exact ⟨rfl, rfl, rfl⟩
      · simp only [add_audio_chunk_verdict_none] at hv
        exact absurd hv (by simp)

/-- C1: the returned frame carries an accuracy verdict exactly when the
expected-note sequence is non-empty, the cursor addresses a valid entry,
the frame carries a detected pitch, and the onset latch is set once the
chunk has been processed.  In particular a frame produced while
`onset_detected` is still false never carries a verdict, pitch or not. -/
theorem verdict_gate_iff (ps : PerformanceState) (chunk : List ℕ) :
    ((analyze_chunk ps chunk).2.verdict.isSome = true) ↔
      (ps.expected_notes ≠ [] ∧
       ps.current_note_index < ps.expected_notes.length ∧
       (analyze_chunk ps chunk).2.pitch_hz.isSome = true ∧
       (analyze_chunk ps chunk).1.audio.onset_detected = true) := by
  simp only [analyze_chunk]
  rcases hp : (add_audio_chunk ps.audio chunk).2.pitch_hz with _ | p
  · simp [add_audio_chunk_verdict_none, hp]
  · simp only [hp]
    split
    · rename_i hg
      simp [hg.1, hg.2.1, hg.2.2.2, hp]
    · rename_i hg
      have hnz := add_audio_chunk_pitch_ne_zero ps.audio chunk p hp
      simp [add_audio_chunk_verdict_none, hp]
      intro hA hB
      cases honset : (add_audio_chunk ps.audio chunk).1.onset_detected
      · rfl
      · exact absurd ⟨hA, hB, hnz, honset⟩ hg

/-- Once the latch is set, the onset block is skipped entirely. -/
theorem onset_step_fired (st : AudioState) (rms : ℝ) (now : ℚ)
    (h : st.onset_detected = true) : onset_step st rms now = (st, false) := by
  simp [onset_step, h]

/-- Shape of one onset step: either it fires (flag goes false → true and the
frame reports it) or the flag and timestamp pass through and the frame
reports nothing. -/
theorem onset_step_shape (st : AudioState) (rms : ℝ) (now : ℚ) :
    ((onset_step st rms now).2 = true ∧ st.onset_detected = false ∧
      (onset_step st rms now).1.onset_detected = true) ∨
    ((onset_step st rms now).2 = false ∧
      (onset_step st rms now).1.onset_detected = st.onset_detected ∧
      (onset_step st rms now).1.onset_time = st.onset_time) := by
  unfold onset_step
  rcases h : st.onset_detected
  · simp only [h, Bool.false_eq_true, if_false]
    split_ifs <;> simp
  · simp [h]

/-- One chunk of the low-level analyzer preserves a fired latch: flag stays
set, timestamp untouched, frame reports `onset_detected = false`. -/
theorem _analyze_chunk_onset_preserved (st : AudioState) (chunk : List ℕ)
    (h : st.onset_detected = true) :
    (_analyze_chunk st chunk).1.onset_detected = true ∧
    (_analyze_chunk st chunk).1.onset_time = st.onset_time ∧
    (_analyze_chunk st chunk).2.onset_detected = false := by
  unfold _analyze_chunk
  rcases hdec : decodeInt16 chunk with _ | ds
  · simp [hdec, h]
  · rcases ds with _ | ⟨d, ds⟩
    · simp [hdec, h]
    · simp only [hdec]
      rw [onset_step_fired _ _ _ h]
      simp [h]

/-- The low-level frame reports onset exactly on the false → true
transition of the latch. -/
theorem _analyze_chunk_onset_report (st : AudioState) (chunk : List ℕ) :
    (_analyze_chunk st chunk).2.onset_detected = true ↔
      (st.onset_detected = false ∧
       (_analyze_chunk st chunk).1.onset_detected = true) := by
  unfold _analyze_chunk
  rcases hdec : decodeInt16 chunk with _ | ds
  · simp only [hdec]
    constructor
    · intro hfr; simp at hfr
    · rintro ⟨h1, h2⟩; rw [h1] at h2; cases h2
  · rcases ds with _ | ⟨d, ds⟩
    · simp only [hdec]
      constructor
      · intro hfr; simp at hfr
      · rintro ⟨h1, h2⟩; rw [h1] at h2; cases h2
    · simp only [hdec]
      obtain ⟨hrep, hoff, hon⟩ | ⟨hrep, hflag, _⟩ :=
        onset_step_shape st
          (rmsOf ((d :: ds).map (fun v : ℤ => (v : ℚ) / 32768)))
          ((st.total_bytes : ℚ) / ((sample_rate : ℚ) * 2))
      · simp only [hrep, hon]
        simp [hoff]
      · simp only [hrep, hflag]
        constructor
        · intro hfr; simp at hfr
        · rintro ⟨h1, h2⟩; rw [h1] at h2; cases h2

/-- Lifting latch preservation through the byte-counting wrapper. -/
theorem add_audio_chunk_onset_preserved (st : AudioState) (chunk : List ℕ)
    (h : st.onset_detected = true) :
    (add_audio_chunk st chunk).1.onset_detected = true ∧
    (add_audio_chunk st chunk).1.onset_time = st.onset_time ∧
    (add_audio_chunk st chunk).2.onset_detected = false := by
  unfold add_audio_chunk
  exact _analyze_chunk_onset_preserved _ _ h

/-- C2: the onset latch fires at most once.  From a state whose latch is
set, any further stream of chunks keeps the flag set, never changes the
recorded timestamp, and every produced frame reports
`onset_detected = false`; and a single chunk's frame reports
`onset_detected = true` exactly when that chunk flipped the latch from
false to true (so the report appears on exactly one frame per session). -/
theorem onset_latch :
    (∀ (st : AudioState) (chunks : List (List ℕ)), st.onset_detected = true →
      (process_chunks st chunks).1.onset_detected = true ∧
      (process_chunks st chunks).1.onset_time = st.onset_time ∧
      ∀ fr ∈ (process_chunks st chunks).2, fr.onset_detected = false) ∧
    (∀ (st : AudioState) (chunk : List ℕ),
      (add_audio_chunk st chunk).2.onset_detected = true ↔
        (st.onset_detected = false ∧
         (add_audio_chunk st chunk).1.onset_detected = true)) := by
  constructor
  · intro st chunks
    induction chunks generalizing st with
    | nil => intro h; exact ⟨h, rfl, by intro fr hfr; cases hfr⟩
    | cons c cs ih =>
        intro h
        obtain ⟨h1, h2, h3⟩ := add_audio_chunk_onset_preserved st c h
        obtain ⟨g1, g2, g3⟩ := ih (add_audio_chunk st c).1 h1
        refine ⟨by simp only [process_chunks]; exact g1,
                by simp only [process_chunks]; rw [g2, h2], ?_⟩
        intro fr hfr
        simp only [process_chunks, List.mem_cons] at hfr
        rcases hfr with hfr | hfr
        · exact hfr ▸ h3
        · exact g3 fr hfr
  · intro st chunk
    unfold add_audio_chunk
    exact _analyze_chunk_onset_report _ _

/-- Odd byte counts always fail to decode (`np.frombuffer` raises when the
buffer size is not a multiple of the 2-byte element size). -/
theorem decodeInt16_odd (chunk : List ℕ) (h : chunk.length % 2 = 1) :
    decodeInt16 chunk = none := by
  induction chunk using decodeInt16.induct with
  | case1 => simp at h
  | case2 b => rfl
  | case3 lo hi rest ih =>
      simp only [List.length_cons] at h
      have : rest.length % 2 = 1 := by omega
      simp [decodeInt16, ih this]

/-- C9 (amended): a decode failure yields an error-status frame and leaves
every session field unchanged except the cumulative byte count, which was
already incremented before decoding; an empty chunk yields an empty-status
frame and leaves the whole state unchanged.  The step function is total, so
subsequent chunks are processed exactly as if the bad chunk had not
happened (apart from the inflated byte count). -/
theorem decode_failure_state (st : AudioState) (chunk : List ℕ) :
    (decodeInt16 chunk = none →
      (add_audio_chunk st chunk).2.status = "error" ∧
      (add_audio_chunk st chunk).1 =
        { st with total_bytes := st.total_bytes + chunk.length }) ∧
    (chunk = [] →
      (add_audio_chunk st chunk).2.status = "empty" ∧
      (add_audio_chunk st chunk).1 = st) ∧
    (chunk.length % 2 = 1 → (add_audio_chunk st chunk).2.status = "error") := by
  refine ⟨?_, ?_, ?_⟩
  · intro hdec
    unfold add_audio_chunk _analyze_chunk
    simp [hdec]
  · intro hempty
    subst hempty
    unfold add_audio_chunk _analyze_chunk
    simp [decodeInt16]
  · intro hodd
    unfold add_audio_chunk _analyze_chunk
    simp [decodeInt16_odd chunk hodd]

/-- Witness for C9's amended statement: the 3-byte chunk `[0, 0, 0]`. -/
theorem decode_failure_state_witness :
    decodeInt16 [0, 0, 0] = none ∧
    (add_audio_chunk initAudioState [0, 0, 0]).2.status = "error" ∧
    (add_audio_chunk initAudioState [0, 0, 0]).1 =
      { initAudioState with total_bytes := initAudioState.total_bytes + 3 } :=
  ⟨rfl, ((decode_failure_state initAudioState [0, 0, 0]).1 rfl).1,
    ((decode_failure_state initAudioState [0, 0, 0]).1 rfl).2⟩

/-- Counterexample to C9 as stated: the malformed 3-byte chunk does change
a field of the session state — the cumulative byte count goes from 0 to 3. -/
theorem decode_error_changes_total_bytes :
    initAudioState.total_bytes = 0 ∧
    (add_audio_chunk initAudioState [0, 0, 0]).2.status = "error" ∧
    (add_audio_chunk initAudioState [0, 0, 0]).1.total_bytes = 3 := by
  refine ⟨rfl, ((decode_failure_state initAudioState [0, 0, 0]).1 rfl).1, ?_⟩
  have h := ((decode_failure_state initAudioState [0, 0, 0]).1 rfl).2
  rw [h]
  rfl

/-- Counterexample to C8 as stated: resetting a session whose tempo was set
to 90 BPM leaves the tempo at 90, not at the default 120. -/
theorem reset_keeps_tempo_cex :
    psFired.tempo = 90 ∧ (performance_reset psFired).tempo = 90 ∧
    (90 : ℤ) ≠ 120 :=
  ⟨rfl, rfl, by decide⟩

/-- C8 (amended): after `reset`, every audio-analyzer field is back at its
`__init__` value (onset flag false, timestamp cleared, histories empty,
noise floor 0.001, loud-frame counter 0, byte count 0, pitch list empty)
and the cursor is back at 0, while the bound excerpt, its expected-note
sequence — and, contrary to the claim, also the stored tempo — are left
as they were. -/
theorem reset_restores_all_but_tempo (ps : PerformanceState) :
    (performance_reset ps).audio = initAudioState ∧
    (performance_reset ps).audio.total_bytes = 0 ∧
    (performance_reset ps).audio.pitch_detection_buffer = [] ∧
    (performance_reset ps).audio.onset_detected = false ∧
    (performance_reset ps).audio.onset_time = none ∧
    (performance_reset ps).audio.rms_history = [] ∧
    (performance_reset ps).audio.noise_floor = 1/1000 ∧
    (performance_reset ps).audio.consecutive_loud_frames = 0 ∧
    (performance_reset ps).audio.detected_pitches = [] ∧
    (performance_reset ps).current_note_index = 0 ∧
    (performance_reset ps).tempo = ps.tempo ∧
    (performance_reset ps).expected_notes = ps.expected_notes ∧
    (performance_reset ps).excerpt = ps.excerpt ∧
    (performance_reset ps).excerpt_id = ps.excerpt_id :=
  ⟨rfl, rfl, rfl, rfl, rfl, rfl, rfl, rfl, rfl, rfl, rfl, rfl, rfl, rfl⟩

/-- Counterexample to C7 as stated: requesting index 5 on a one-note
sequence leaves the state unchanged and does not fault, but the session
sends no reply at all (the router's `set_note_index` branch acknowledges
silently), so no rejection reply reaches the caller. -/
theorem set_note_index_silent_cex :
    psOneNote.expected_notes.length = 1 ∧
    (set_note_index_command psOneNote 5).1 = psOneNote ∧
    (set_note_index_command psOneNote 5).2 = none := by
  refine ⟨rfl, ?_, rfl⟩
  unfold set_note_index_command set_current_note_index
  rw [if_neg]
  intro h
  have : ((psOneNote.expected_notes.length : ℤ)) = 1 := rfl
  omega

/-- C7 (amended): an out-of-range note index (negative or ≥ the sequence
length) leaves the cursor and all other session state unchanged and does
not fault; the rejection is only logged server-side — the command branch
sends no reply to the caller. -/
theorem set_note_index_out_of_range (ps : PerformanceState) (i : ℤ)
    (h : ¬ (0 ≤ i ∧ i < (ps.expected_notes.length : ℤ))) :
    (set_note_index_command ps i).1 = ps ∧
    (set_note_index_command ps i).2 = none := by
  unfold set_note_index_command set_current_note_index
  rw [if_neg h]
  exact ⟨rfl, rfl⟩

/-- Witness for C7's amended statement: index 5 against one expected note. -/
theorem set_note_index_out_of_range_witness :
    ¬ ((0 : ℤ) ≤ 5 ∧ (5 : ℤ) < (psOneNote.expected_notes.length : ℤ)) ∧
    ((set_note_index_command psOneNote 5).1 = psOneNote ∧
     (set_note_index_command psOneNote 5).2 = none) := by
  have h : ¬ ((0 : ℤ) ≤ 5 ∧ (5 : ℤ) < (psOneNote.expected_notes.length : ℤ)) := by
    have : ((psOneNote.expected_notes.length : ℤ)) = 1 := rfl
    omega
  exact ⟨h, set_note_index_out_of_range psOneNote 5 h⟩

/-- Counterexample to C6 as stated: with one expected note, the cursor 0 is
the final valid index, yet completion is 0, not 100. -/
theorem completion_at_final_index_cex :
    psOneNote.expected_notes ≠ [] ∧
    psOneNote.current_note_index = psOneNote.expected_notes.length - 1 ∧
    (get_final_report psOneNote).completion_percentage = 0 ∧
    (0 : ℚ) ≠ 100 := by
  refine ⟨by simp [psOneNote], rfl, ?_, by norm_num⟩
  simp only [get_final_report, psOneNote]
  rw [if_pos (by simp)]
  norm_num [round1, pyRound]

/-- C6 (amended): completion is `round1(cursor / total × 100)` for a
non-empty sequence and exactly 0 for an empty one; when the cursor sits at
the final valid index `n - 1` that value is `round1((n-1)/n × 100)` — e.g.
0 for a one-note excerpt — not 100 in general. -/
theorem completion_formula (ps : PerformanceState) :
    (ps.expected_notes = [] → (get_final_report ps).completion_percentage = 0) ∧
    (ps.expected_notes ≠ [] →
      (get_final_report ps).completion_percentage =
        round1 ((ps.current_note_index : ℚ) / (ps.expected_notes.length : ℚ) * 100)) ∧
    (ps.expected_notes ≠ [] → ps.current_note_index = ps.expected_notes.length - 1 →
      (get_final_report ps).completion_percentage =
        round1 ((((ps.expected_notes.length : ℕ) - 1 : ℕ) : ℚ) /
                (ps.expected_notes.length : ℚ) * 100)) := by
  refine ⟨?_, ?_, ?_⟩
  · intro h
    simp only [get_final_report]
    rw [if_neg (by simp [h])]
  · intro h
    simp only [get_final_report]
    rw [if_pos h]
  · intro h hidx
    simp only [get_final_report]
    rw [if_pos h, hidx]

/-- The scan loop finds exactly the first qualifying index of its window. -/
theorem firstPeakFrom_eq_some (sr : List ℚ) (fuel : ℕ) :
    ∀ i j, firstPeakFrom sr i fuel = some j ↔
      (i ≤ j ∧ j < i + fuel ∧ localPeakAt sr j ∧
       ∀ k, i ≤ k → k < j → ¬ localPeakAt sr k) := by
  induction fuel with
  | zero =>
      intro i j
      simp only [firstPeakFrom]
      constructor
      · intro h; cases h
      · rintro ⟨h1, h2, -, -⟩; omega
  | succ n ih =>
      intro i j
      unfold firstPeakFrom
      by_cases hp : localPeakAt sr i
      · rw [if_pos hp]
        constructor
        · intro h
          cases h
          exact ⟨le_refl _, by omega, hp, fun k hk1 hk2 => absurd hk1 (by omega)⟩
        · rintro ⟨h1, h2, h3, h4⟩
          by_cases hij : i = j
          · rw [hij]
          · exact absurd hp (h4 i (le_refl _) (by omega))
      · rw [if_neg hp, ih (i + 1) j]
        constructor
        · rintro ⟨h1, h2, h3, h4⟩
          refine ⟨by omega, by omega, h3, ?_⟩
          intro k hk1 hk2
          rcases Nat.eq_or_lt_of_le hk1 with hk | hk
          · rw [← hk]; exact hp
          · exact h4 k (by omega) hk2
        · rintro ⟨h1, h2, h3, h4⟩
          have hij : i ≠ j := by rintro rfl; exact hp h3
          exact ⟨by omega, by omega, h3, fun k hk1 hk2 => h4 k (by omega) hk2⟩

/-- The scan loop returns nothing exactly when its window has no
qualifying index. -/
theorem firstPeakFrom_eq_none (sr : List ℚ) (fuel : ℕ) :
    ∀ i, firstPeakFrom sr i fuel = none ↔
      (∀ k, i ≤ k → k < i + fuel → ¬ localPeakAt sr k) := by
  induction fuel with
  | zero =>
      intro i
      simp only [firstPeakFrom]
      constructor
      · intro _ k hk1 hk2; omega
      · intro _; trivial
  | succ n ih =>
      intro i
      unfold firstPeakFrom
      by_cases hp : localPeakAt sr i
      · rw [if_pos hp]
        constructor
        · intro h; cases h
        · intro h; exact absurd hp (h i (le_refl _) (by omega))
      · rw [if_neg hp, ih (i + 1)]
        constructor
        · intro h k hk1 hk2
          rcases Nat.eq_or_lt_of_le hk1 with hk | hk
          · rw [← hk]; exact hp
          · exact h k (by omega) (by omega)
        · intro h k hk1 hk2
          exact h k (by omega) (by omega)

/-- `np.argmax` specification: in range, carries the maximum, and is the
first index to do so. -/
theorem argmaxIdx_spec : ∀ l : List ℚ, l ≠ [] →
    argmaxIdx l < l.length ∧
    (∀ j, j < l.length → l.getD j 0 ≤ l.getD (argmaxIdx l) 0) ∧
    (∀ j, j < argmaxIdx l → l.getD j 0 < l.getD (argmaxIdx l) 0) := by
  intro l
  induction l with
  | nil => intro h; exact absurd rfl h
  | cons x t ih =>
      intro _
      rcases t with _ | ⟨y, rest⟩
      · refine ⟨by simp [argmaxIdx], ?_, ?_⟩
        · intro j hj
          rcases j with _ | k
          · simp [argmaxIdx]
          · simp at hj
        · intro j hj
          simp [argmaxIdx] at hj
      · obtain ⟨ih1, ih2, ih3⟩ := ih (by simp)
        rw [show argmaxIdx (x :: y :: rest) =
              (if x < (y :: rest).getD (argmaxIdx (y :: rest)) 0
               then argmaxIdx (y :: rest) + 1 else 0) from rfl]
        by_cases hx : x < (y :: rest).getD (argmaxIdx (y :: rest)) 0
        · rw [if_pos hx]
          refine ⟨by simpa using ih1, ?_, ?_⟩
          · intro j hj
            rcases j with _ | k
            · simpa using le_of_lt hx
            · simp only [List.getD_cons_succ]
              exact ih2 k (by simpa using hj)
          · intro j hj
            rcases j with _ | k
            · simpa using hx
            · simp only [List.getD_cons_succ]
              exact ih3 k (by omega)
        · rw [if_neg hx]
          push_neg at hx
          refine ⟨by simp, ?_, ?_⟩
          · intro j hj
            rcases j with _ | k
            · simp
            · simp only [List.getD_cons_succ, List.getD_cons_zero]
              exact le_trans (ih2 k (by simpa using hj)) hx
          · intro j hj
            omega

/-- C5: under the guards of `_detect_pitch` (audible signal, correlation
long enough, non-empty search range) there is a winning lag: the first
qualifying local maximum of the search range when one exists, otherwise the
first global maximum (`np.argmax`); the returned pitch is `rate / lag`
exactly when that value lies within 50..2000 Hz, and `none` otherwise. -/
theorem peak_selection (rate : ℕ) (audio : List ℚ)
    (hamp : ¬ (maxAmplitude audio < 1/500))
    (hper : ¬ ((normCorr audio).length ≤ max_period rate))
    (hsr : searchRange rate audio ≠ []) :
    ∃ lag : ℕ,
      ((∃ i, QualifiesAsPeak (searchRange rate audio) i) →
        QualifiesAsPeak (searchRange rate audio) (lag - min_period rate) ∧
        min_period rate ≤ lag ∧
        (∀ i, QualifiesAsPeak (searchRange rate audio) i →
          lag - min_period rate ≤ i)) ∧
      ((¬ ∃ i, QualifiesAsPeak (searchRange rate audio) i) →
        lag = min_period rate + argmaxIdx (searchRange rate audio) ∧
        (∀ j, j < (searchRange rate audio).length →
          (searchRange rate audio).getD j 0 ≤
          (searchRange rate audio).getD (lag - min_period rate) 0) ∧
        (∀ j, j < lag - min_period rate →
          (searchRange rate audio).getD j 0 <
          (searchRange rate audio).getD (lag - min_period rate) 0)) ∧
      (_detect_pitch rate audio =
        if 0 < lag ∧ 50 ≤ (rate : ℚ) / lag ∧ (rate : ℚ) / lag ≤ 2000
        then some ((rate : ℚ) / lag) else none) := by
  have hlen : ¬ (searchRange rate audio).length = 0 := by
    intro h; exact hsr (List.eq_nil_of_length_eq_zero h)
  have hdetect : ∀ pk : ℕ,
      (if 0 < pk then
        (if 50 ≤ (rate : ℚ) / pk ∧ (rate : ℚ) / pk ≤ 2000
         then some ((rate : ℚ) / pk) else none)
       else none) =
      (if 0 < pk ∧ 50 ≤ (rate : ℚ) / pk ∧ (rate : ℚ) / pk ≤ 2000
       then some ((rate : ℚ) / pk) else none) := by
    intro pk
    by_cases hpos : 0 < pk
    · rw [if_pos hpos]
      by_cases hr : 50 ≤ (rate : ℚ) / pk ∧ (rate : ℚ) / pk ≤ 2000
      · rw [if_pos hr, if_pos ⟨hpos, hr.1, hr.2⟩]
      · rw [if_neg hr, if_neg (fun hc => hr ⟨hc.2.1, hc.2.2⟩)]
    · rw [if_neg hpos, if_neg (fun hc => hpos hc.1)]
  rcases hfp : firstPeak (searchRange rate audio) with _ | i
  · -- no qualifying local maximum: fall back to the global argmax
    have hfp0 := hfp
    rw [firstPeak, firstPeakFrom_eq_none] at hfp
    have hnoq : ¬ ∃ i, QualifiesAsPeak (searchRange rate audio) i := by
      rintro ⟨i, h1, h2, h3⟩
      exact hfp i h1 (by omega) h3
    refine ⟨argmaxIdx (searchRange rate audio) + min_period rate,
      fun h => absurd h hnoq, ?_, ?_⟩
    · intro _
      obtain ⟨a1, a2, a3⟩ := argmaxIdx_spec (searchRange rate audio) hsr
      have hsub : argmaxIdx (searchRange rate audio) + min_period rate -
          min_period rate = argmaxIdx (searchRange rate audio) := by omega
      rw [hsub]
      exact ⟨by omega, a2, a3⟩
    · simp only [_detect_pitch]
      rw [if_neg hamp, if_neg hper, if_neg hlen, hfp0]
      exact hdetect _
  · -- the scan found the first qualifying local maximum
    have hfp0 := hfp
    rw [firstPeak, firstPeakFrom_eq_some] at hfp
    obtain ⟨h1, h2, h3, h4⟩ := hfp
    refine ⟨i + min_period rate, ?_, ?_, ?_⟩
    · intro _
      have hsub : i + min_period rate - min_period rate = i := by omega
      rw [hsub]
      refine ⟨⟨h1, by omega, h3⟩, by omega, ?_⟩
      intro k hk
      by_contra hlt
      push_neg at hlt
      exact h4 k hk.1 hlt hk.2.2
    · intro hno
      exact absurd ⟨i, h1, by omega, h3⟩ hno
    · simp only [_detect_pitch]
      rw [if_neg hamp, if_neg hper, if_neg hlen, hfp0]
      exact hdetect _

/-- Normalization does not change the correlation length. -/
theorem normCorr_length (a : List ℚ) : (normCorr a).length = a.length := by
  simp only [normCorr]
  split <;> simp [autocorrHalf]

/-- Witness for C5 at a concrete window: rate 200 over five samples, where
the guards hold (amplitude 1, correlation length 5 > max lag 4, search
range of length 4). -/
theorem peak_selection_witness :
    (¬ (maxAmplitude [1, 0, 0, 0, 1] < (1/500 : ℚ))) ∧
    (¬ ((normCorr [1, 0, 0, 0, 1]).length ≤ max_period 200)) ∧
    (searchRange 200 [1, 0, 0, 0, 1] ≠ []) ∧
    (∃ lag : ℕ,
      _detect_pitch 200 [1, 0, 0, 0, 1] =
        if 0 < lag ∧ 50 ≤ (200 : ℚ) / lag ∧ (200 : ℚ) / lag ≤ 2000
        then some ((200 : ℚ) / lag) else none) := by
  have p1 : ¬ (maxAmplitude [1, 0, 0, 0, 1] < (1/500 : ℚ)) := by
    norm_num [maxAmplitude, qabs, qmax]
  have p2 : ¬ ((normCorr [1, 0, 0, 0, 1]).length ≤ max_period 200) := by
    rw [normCorr_length]
    norm_num [max_period]
  have p3 : searchRange 200 [1, 0, 0, 0, 1] ≠ [] := by
    have hl : (searchRange 200 [1, 0, 0, 0, 1]).length = 4 := by
      simp [searchRange, normCorr_length, min_period, max_period]
    intro h
    rw [h] at hl
    simp at hl
  obtain ⟨lag, -, -, h3⟩ := peak_selection 200 [1, 0, 0, 0, 1] p1 p2 p3
  exact ⟨p1, p2, p3, ⟨lag, h3⟩⟩

/-! ## Decimal string round-trip (for the note-name round-trip, C10) -/

/-- Digit characters decode to their value. -/
theorem digitVal_digitChar (d : ℕ) (h : d < 10) : digitVal (digitChar d) = d := by
  interval_cases d <;> decide

/-- Digit characters pass the digit test. -/
theorem isDigitChar_digitChar (d : ℕ) (h : d < 10) :
    isDigitChar (digitChar d) = true := by
  interval_cases d <;> decide

/-- With enough fuel the rendering is non-empty, all digits, and decodes
back to the number. -/
theorem pyStrNatAux_spec : ∀ fuel n, n < fuel →
    pyStrNatAux fuel n ≠ [] ∧
    (pyStrNatAux fuel n).all isDigitChar = true ∧
    (pyStrNatAux fuel n).foldl (fun a c => 10 * a + digitVal c) 0 = n := by
  intro fuel
  induction fuel with
  | zero => intro n h; omega
  | succ f ih =>
      intro n h
      by_cases h10 : n < 10
      · simp only [pyStrNatAux, if_pos h10]
        refine ⟨by simp, ?_, ?_⟩
        · simp only [List.all_cons, List.all_nil, Bool.and_true]
          exact isDigitChar_digitChar n h10
        · simp only [List.foldl_cons, List.foldl_nil, Nat.mul_zero, Nat.zero_add]
          exact digitVal_digitChar n h10
      · simp only [pyStrNatAux, if_neg h10]
        have hdiv : n / 10 < f := by
          have := Nat.div_lt_self (show 0 < n by omega) (show 1 < 10 by norm_num)
          omega
        obtain ⟨ih1, ih2, ih3⟩ := ih (n / 10) hdiv
        have hmod : n % 10 < 10 := Nat.mod_lt _ (by norm_num)
        refine ⟨by simp, ?_, ?_⟩
        · rw [List.all_append, ih2]
          simp only [List.all_cons, List.all_nil, Bool.and_true, Bool.true_and]
          exact isDigitChar_digitChar _ hmod
        · rw [List.foldl_append, ih3]
          simp only [List.foldl_cons, List.foldl_nil]
          rw [digitVal_digitChar _ hmod]
          omega

/-- Python's `int(str(n)) == n` for naturals. -/
theorem pyParseNat_pyStrNat (n : ℕ) : pyParseNat (pyStrNat n) = some n := by
  obtain ⟨h1, h2, h3⟩ := pyStrNatAux_spec (n + 1) n (by omega)
  unfold pyParseNat pyStrNat
  rw [if_pos ⟨h1, h2⟩, h3]

/-- The rendering of a natural starts with a digit. -/
theorem pyStrNat_head (n : ℕ) :
    ∃ c t, pyStrNat n = c :: t ∧ isDigitChar c = true := by
  obtain ⟨h1, h2, -⟩ := pyStrNatAux_spec (n + 1) n (by omega)
  rcases hs : pyStrNat n with _ | ⟨c, t⟩
  · unfold pyStrNat at hs; exact absurd hs h1
  · refine ⟨c, t, rfl, ?_⟩
    unfold pyStrNat at hs
    rw [hs] at h2
    simp only [List.all_cons, Bool.and_eq_true] at h2
    exact h2.1

/-- A digit character is not a sign or accidental marker. -/
theorem isDigitChar_ne (c : Char) (h : isDigitChar c = true) :
    c ≠ '-' ∧ c ≠ '#' ∧ c ≠ 'b' := by
  refine ⟨fun hc => ?_, fun hc => ?_, fun hc => ?_⟩ <;>
    (subst hc; revert h; decide)

/-- The rendering of an integer starts with a character that is not an
accidental marker. -/
theorem pyStrInt_cons (n : ℤ) :
    ∃ c t, pyStrInt n = c :: t ∧ c ≠ '#' ∧ c ≠ 'b' := by
  unfold pyStrInt
  split
  · exact ⟨'-', _, rfl, by decide, by decide⟩
  · obtain ⟨c, t, h1, h2⟩ := pyStrNat_head _
    exact ⟨c, t, h1, (isDigitChar_ne c h2).2.1, (isDigitChar_ne c h2).2.2⟩

/-- Python's `int(str(n)) == n` for integers. -/
theorem pyParseInt_pyStrInt (n : ℤ) : pyParseInt (pyStrInt n) = some n := by
  unfold pyStrInt
  split
  · rename_i hneg
    simp only [pyParseInt, if_true]
    rw [pyParseNat_pyStrNat]
    simp only [Option.map_some', Option.some.injEq]
    omega
  · rename_i hpos
    obtain ⟨c, t, h1, hd⟩ := pyStrNat_head n.toNat
    rw [h1]
    simp only [pyParseInt]
    rw [if_neg (isDigitChar_ne c hd).1, ← h1, pyParseNat_pyStrNat]
    simp only [Option.map_some', Option.some.injEq]
    omega

/-- Rounding an exact integer returns it. -/
theorem pyRound_intCast {α : Type} [LinearOrderedField α] [FloorRing α]
    (m : ℤ) : pyRound ((m : α)) = m := by
  simp [pyRound, Int.floor_intCast]

/-- Feeding `_frequency_to_note` the exact equal-tempered frequency of MIDI
note `m` recovers `m` (the log is exact and rounding is the identity on
integers), hence produces `note_names[m % 12]` with octave `m // 12 - 1`. -/
theorem frequency_to_note_of_midi (m : ℤ) :
    _frequency_to_note (440 * (2 : ℝ) ^ (((m : ℝ) - 69) / 12)) =
      note_names.getD (m.emod 12).toNat [] ++ pyStrInt (m.ediv 12 - 1) := by
  have hpos : (0 : ℝ) < 440 * (2 : ℝ) ^ (((m : ℝ) - 69) / 12) :=
    mul_pos (by norm_num) (Real.rpow_pos_of_pos (by norm_num) _)
  unfold _frequency_to_note
  rw [if_neg (not_le.mpr hpos)]
  have hdiv : (440 * (2 : ℝ) ^ (((m : ℝ) - 69) / 12)) / 440 =
      (2 : ℝ) ^ (((m : ℝ) - 69) / 12) := by
    field_simp
  rw [hdiv, Real.logb_rpow (by norm_num) (by norm_num)]
  have hmi : (69 : ℝ) + 12 * (((m : ℝ) - 69) / 12) = (m : ℝ) := by ring
  rw [hmi, pyRound_intCast]

/-- Python's `%` and `//` on the MIDI decomposition. -/
theorem midi_components (oct k : ℤ) (h0 : 0 ≤ k) (h1 : k < 12) :
    ((oct + 1) * 12 + k).emod 12 = k ∧
    ((oct + 1) * 12 + k).ediv 12 - 1 = oct := by
  constructor
  · show ((oct + 1) * 12 + k) % 12 = k
    omega
  · show ((oct + 1) * 12 + k) / 12 - 1 = oct
    omega

/-- Composition: the frequency of MIDI note `(oct+1)*12 + k` maps back to
`note_names[k]` with the original octave. -/
theorem freq_to_note_midi (oct k : ℤ) (h0 : 0 ≤ k) (h1 : k < 12) :
    _frequency_to_note
        (440 * (2 : ℝ) ^ (((((oct + 1) * 12 + k : ℤ) : ℝ) - 69) / 12)) =
      note_names.getD k.toNat [] ++ pyStrInt oct := by
  rw [frequency_to_note_of_midi ((oct + 1) * 12 + k)]
  obtain ⟨he, hd⟩ := midi_components oct k h0 h1
  rw [he, hd]

/-- Parsing a sharp/flat spelling: `note_to_frequency` takes the two-letter
accidental branch and yields the equal-tempered frequency of the mapped
semitone. -/
theorem note_to_frequency_accidental (c a : Char) (k oct : ℤ)
    (hca : a = '#' ∨ a = 'b') (hcr : c ≠ 'r')
    (hk : lookupNote [c, a] = some k) :
    note_to_frequency (c :: a :: pyStrInt oct) =
      some (440 * (2 : ℝ) ^ (((((oct + 1) * 12 + k : ℤ) : ℝ) - 69) / 12)) := by
  unfold note_to_frequency
  rw [if_neg ?hrest]
  case hrest =>
    rintro (h | h)
    · injection h with h1 _
      exact hcr h1
    · simp at h
  rw [if_pos (by simp only [List.length_cons]; omega)]
  simp only []
  rw [if_pos hca, hk, pyParseInt_pyStrInt]

/-- Parsing a natural spelling: the second character is the octave string's
first character, which is never an accidental marker, so the one-letter
branch is taken. -/
theorem note_to_frequency_natural (c : Char) (k oct : ℤ)
    (hcr : c ≠ 'r') (hk : lookupNote [c] = some k) :
    note_to_frequency (c :: pyStrInt oct) =
      some (440 * (2 : ℝ) ^ (((((oct + 1) * 12 + k : ℤ) : ℝ) - 69) / 12)) := by
  obtain ⟨h, t, hst, hh1, hh2⟩ := pyStrInt_cons oct
  rw [hst]
  unfold note_to_frequency
  rw [if_neg ?hrest]
  case hrest =>
    rintro (hr | hr)
    · injection hr with h1 _
      exact hcr h1
    · simp at hr
  rw [if_pos (by simp only [List.length_cons]; omega)]
  simp only []
  rw [if_neg (by rintro (hr | hr); exacts [hh1 hr, hh2 hr]), ← hst, hk,
    pyParseInt_pyStrInt]

/-- Counterexample to C10 as stated: "E#4" is a letter A-G plus '#' plus an
octave integer, but E# is not in the note table, so `note_to_frequency`
returns nothing at all and the round trip fails (likewise B#). -/
theorem sharp_roundtrip_cex :
    pyStrInt 4 = ['4'] ∧
    note_to_frequency ['E', '#', '4'] = none ∧
    note_to_frequency ['B', '#', '4'] = none :=
  ⟨rfl, rfl, rfl⟩

/-- C10 (amended): naturals A-G round-trip through
`note_to_frequency` / `_frequency_to_note`; sharps round-trip for the five
letters with a sharp entry in the note table (C, D, F, G, A — E# and B# are
not in the table and convert to no frequency at all); flat spellings map to
the equal-tempered frequency of their sharp enharmonic and round-trip to
the sharp spelling. -/
theorem note_name_roundtrip :
    (∀ (c : Char) (oct : ℤ), c ∈ (['C', 'D', 'E', 'F', 'G', 'A', 'B'] : List Char) →
      ∃ f, note_to_frequency (c :: pyStrInt oct) = some f ∧
           _frequency_to_note f = c :: pyStrInt oct) ∧
    (∀ (c : Char) (oct : ℤ), c ∈ (['C', 'D', 'F', 'G', 'A'] : List Char) →
      ∃ f, note_to_frequency (c :: '#' :: pyStrInt oct) = some f ∧
           _frequency_to_note f = c :: '#' :: pyStrInt oct) ∧
    (∀ (cf cs : Char) (oct : ℤ),
      (cf, cs) ∈ ([('D', 'C'), ('E', 'D'), ('G', 'F'), ('A', 'G'), ('B', 'A')] :
        List (Char × Char)) →
      ∃ f, note_to_frequency (cf :: 'b' :: pyStrInt oct) = some f ∧
           note_to_frequency (cs :: '#' :: pyStrInt oct) = some f ∧
           _frequency_to_note f = cs :: '#' :: pyStrInt oct) := by
  refine ⟨?_, ?_, ?_⟩
  · intro c oct hc
    fin_cases hc
    · exact ⟨_, note_to_frequency_natural 'C' 0 oct (by decide) (by decide),
        by rw [freq_to_note_midi oct 0 (by decide) (by decide)]; rfl⟩
    · exact ⟨_, note_to_frequency_natural 'D' 2 oct (by decide) (by decide),
        by rw [freq_to_note_midi oct 2 (by decide) (by decide)]; rfl⟩
    · exact ⟨_, note_to_frequency_natural 'E' 4 oct (by decide) (by decide),
        by rw [freq_to_note_midi oct 4 (by decide) (by decide)]; rfl⟩
    · exact ⟨_, note_to_frequency_natural 'F' 5 oct (by decide) (by decide),
        by rw [freq_to_note_midi oct 5 (by decide) (by decide)]; rfl⟩
    · exact ⟨_, note_to_frequency_natural 'G' 7 oct (by decide) (by decide),
        by rw [freq_to_note_midi oct 7 (by decide) (by decide)]; rfl⟩
    · exact ⟨_, note_to_frequency_natural 'A' 9 oct (by decide) (by decide),
        by rw [freq_to_note_midi oct 9 (by decide) (by decide)]; rfl⟩
    · exact ⟨_, note_to_frequency_natural 'B' 11 oct (by decide) (by decide),
        by rw [freq_to_note_midi oct 11 (by decide) (by decide)]; rfl⟩
  · intro c oct hc
    fin_cases hc
    · exact ⟨_, note_to_frequency_accidental 'C' '#' 1 oct (Or.inl rfl)
          (by decide) (by decide),
        by rw [freq_to_note_midi oct 1 (by decide) (by decide)]; rfl⟩
    · exact ⟨_, note_to_frequency_accidental 'D' '#' 3 oct (Or.inl rfl)
          (by decide) (by decide),
        by rw [freq_to_note_midi oct 3 (by decide) (by decide)]; rfl⟩
    · exact ⟨_, note_to_frequency_accidental 'F' '#' 6 oct (Or.inl rfl)
          (by decide) (by decide),
        by rw [freq_to_note_midi oct 6 (by decide) (by decide)]; rfl⟩
    · exact ⟨_, note_to_frequency_accidental 'G' '#' 8 oct (Or.inl rfl)
          (by decide) (by decide),
        by rw [freq_to_note_midi oct 8 (by decide) (by decide)]; rfl⟩
    · exact ⟨_, note_to_frequency_accidental 'A' '#' 10 oct (Or.inl rfl)
          (by decide) (by decide),
        by rw [freq_to_note_midi oct 10 (by decide) (by decide)]; rfl⟩
  · intro cf cs oct hc
    fin_cases hc
    · exact ⟨_, note_to_frequency_accidental 'D' 'b' 1 oct (Or.inr rfl)
          (by decide) (by decide),
        note_to_frequency_accidental 'C' '#' 1 oct (Or.inl rfl)
          (by decide) (by decide),
        by rw [freq_to_note_midi oct 1 (by decide) (by decide)]; rfl⟩
    · exact ⟨_, note_to_frequency_accidental 'E' 'b' 3 oct (Or.inr rfl)
          (by decide) (by decide),
        note_to_frequency_accidental 'D' '#' 3 oct (Or.inl rfl)
          (by decide) (by decide),
        by rw [freq_to_note_midi oct 3 (by decide) (by decide)]; rfl⟩
    · exact ⟨_, note_to_frequency_accidental 'G' 'b' 6 oct (Or.inr rfl)
          (by decide) (by decide),
        note_to_frequency_accidental 'F' '#' 6 oct (Or.inl rfl)
          (by decide) (by decide),
        by rw [freq_to_note_midi oct 6 (by decide) (by decide)]; rfl⟩
    · exact ⟨_, note_to_frequency_accidental 'A' 'b' 8 oct (Or.inr rfl)
          (by decide) (by decide),
        note_to_frequency_accidental 'G' '#' 8 oct (Or.inl rfl)
          (by decide) (by decide),
        by rw [freq_to_note_midi oct 8 (by decide) (by decide)]; rfl⟩
    · exact ⟨_, note_to_frequency_accidental 'B' 'b' 10 oct (Or.inr rfl)
          (by decide) (by decide),
        note_to_frequency_accidental 'A' '#' 10 oct (Or.inl rfl)
          (by decide) (by decide),
        by rw [freq_to_note_midi oct 10 (by decide) (by decide)]; rfl⟩
